import Mathlib

/-!
Shallow embedding of the chatgpt-term conversation session manager
(`src/api.rs`) and proofs about its window-building, persistence and
request-framing behaviour.

Machine integers: the Rust code stores token counts as `u32` and compares
with `u32` arithmetic; we model `u32` values as `Nat` and take results of
additions and casts modulo `2^32` (release-mode wrapping semantics).
External collaborators (HTTP transport, JSON text rendering) are modelled
at their interface boundary: the transport is an oracle function from the
request value to either an error string or the `(answer, prompt_tokens,
completion_tokens)` triple the code extracts from the response body, and
serde_json serialization is modelled at the JSON value level (the file on
disk is the pretty rendering of that value; parsing is whitespace
insensitive, so pretty-print whitespace lives below this level).
-/

namespace ChatGPTTerm

/-- The `u32` modulus. -/
def U32 : Nat := 4294967296

/-- `x as u32` for a Rust `i64` value `x`: the low 32 bits. -/
def as_u32 (x : Int) : Nat := (x % (U32 : Int)).toNat

/-- `ChatLogEntry` from `src/api.rs`: one completed exchange. -/
structure ChatLogEntry where
  message : String
  response : String
  num_tokens_message : Nat
  num_tokens_response : Nat
deriving DecidableEq, Repr

/-- `Message` from `src/api.rs`: a role-tagged chat message. -/
structure Message where
  content : String
  role : String
deriving DecidableEq, Repr

/-- `Message::new` from `src/api.rs`. -/
def Message.new (content role : String) : Message := ⟨content, role⟩

/-- `ChatGPTClient` from `src/api.rs` (the reqwest handle itself is the
excluded transport; we keep its configuration fields). -/
structure ChatGPTClient where
  auth_token : String
  model : String
deriving DecidableEq, Repr

/-- `ChatGPTRequest` from `src/api.rs`: the request body value. -/
structure ChatGPTRequest where
  model : String
  messages : List Message
deriving DecidableEq, Repr

/-- `ChatGPTSession` from `src/api.rs`. -/
structure ChatGPTSession where
  name : String
  chatlog : List ChatLogEntry
  max_tokens : Nat
  client : ChatGPTClient
deriving DecidableEq, Repr

/-- The space character U+0020, the separator in `content.split(' ')`. -/
def isSpace32 (c : Char) : Bool := c.toNat == 32

/-- Rust `str::split(' ')` on the character level: fragments between
space characters, empty fragments included; `""` yields one empty
fragment, matching Rust. -/
def splitSpaces : List Char → List (List Char)
  | [] => [[]]
  | c :: rest =>
    if isSpace32 c then [] :: splitSpaces rest
    else
      match splitSpaces rest with
      | [] => [[c]]
      | piece :: pieces => (c :: piece) :: pieces

/-- `message.content.split(' ').count() as u32` from `src/api.rs` line 101:
the token-cost heuristic seeding the window scan. -/
def num_tokens_of (content : String) : Nat :=
  (splitSpaces content.toList).length % U32

/-- The window-building loop of `ChatGPTSession::send_message`
(`src/api.rs` lines 103-120), with the chatlog already reversed
(newest first) and `messages` the accumulator that `push_front` grows. -/
def build_window_loop (max_tokens : Nat) :
    List ChatLogEntry → List Message → Nat → List Message × Nat
  | [], messages, num_tokens => (messages, num_tokens)
  | entry :: rest, messages, num_tokens =>
    let resp_tokens := entry.num_tokens_response
    if (resp_tokens + num_tokens) % U32 > max_tokens then (messages, num_tokens)
    else
      let messages2 := Message.new entry.response "assistant" :: messages
      let num2 := (num_tokens + resp_tokens) % U32
      let message_tokens := entry.num_tokens_message
      if (message_tokens + num2) % U32 > max_tokens then (messages2, num2)
      else
        build_window_loop max_tokens rest
          (Message.new entry.message "user" :: messages2) ((num2 + message_tokens) % U32)

/-- The full request window `ChatGPTSession::send_message` hands to
`send_request` (`src/api.rs` lines 98-121): scan the chatlog newest-first,
then `push_back` the new user message. -/
def build_window (max_tokens : Nat) (chatlog : List ChatLogEntry) (text : String) :
    List Message :=
  (build_window_loop max_tokens chatlog.reverse [] (num_tokens_of text)).1 ++
    [Message.new text "user"]

/-- Rust `str::replace(pat, "")` at the character level: delete the
leftmost non-overlapping occurrences of `pat`, the search resuming right
after each deleted occurrence, matching `str::match_indices`. -/
def removeOccs (pat : List Char) : List Char → List Char
  | [] => []
  | c :: rest =>
    if h : pat ≠ [] ∧ pat <+: (c :: rest) then
      removeOccs pat (List.drop pat.length (c :: rest))
    else c :: removeOccs pat rest
termination_by s => s.length
decreasing_by
  all_goals simp only [List.length_drop, List.length_cons]
  · have hp : 0 < pat.length := List.length_pos.mpr h.1
    omega
  · omega

/-- `ChatGPTSession::reset` (`src/api.rs` lines 67-70); the fresh
time-derived session name is passed in as `new_name`. -/
def reset (s : ChatGPTSession) (new_name : String) : ChatGPTSession :=
  { s with chatlog := [], name := new_name }

/-- `ChatGPTSession::new` (`src/api.rs` lines 50-57). -/
def ChatGPTSession.mkNew (client : ChatGPTClient) (max_tokens : Nat) (name : String) :
    ChatGPTSession :=
  { name := name, chatlog := [], max_tokens := max_tokens, client := client }

/-- The `[user, assistant]` message pair an entry contributes when fully
included in the window. -/
def pairs_flat : List ChatLogEntry → List Message
  | [] => []
  | e :: rest =>
    Message.new e.message "user" :: Message.new e.response "assistant" :: pairs_flat rest

/-- Spec-side definition, following the spec's words for comparison with
the code's heuristic: the whitespace-delimited word count, i.e. the number
of maximal runs of non-whitespace characters. The flag records whether the
previous character was whitespace (or the start of the string). -/
def word_count_ws : List Char → Bool → Nat
  | [], _ => 0
  | c :: rest, prevWs =>
    if c.isWhitespace then word_count_ws rest true
    else (if prevWs then 1 else 0) + word_count_ws rest false

/-- Spec-side definition: whitespace-delimited word count of a string. -/
def whitespace_word_count (s : String) : Nat := word_count_ws s.toList true

/-- The Rust `String::replace(pat, "")` used in `send_request`
(`src/api.rs` line 239), lifted to `String`. -/
def rustReplace (s pat : String) : String := ⟨removeOccs pat.toList s.toList⟩

/-- The fixed system preamble of `ChatGPTClient::send_request`
(`src/api.rs` lines 189-190). The Rust source is a raw string, so the
embedded `\"` and trailing `\n\n` are literal backslash sequences, and
the line break plus the 12-space indentation of the second source line
are part of the string. -/
def initial_prompt : String :=
  "You are Assistant, a very enthusiastic chatbot. You are chatting with a user.\n            If you don\x27t know the answer to something, say \\\"I don\x27t know\\\".\\n\\n"

/-- The message list actually transmitted: `send_request` prefixes
`initial_prompt` to the first message's content (`src/api.rs` line 194).
An empty list, on which the Rust indexing would panic, never reaches
this point: `send_message` always appends the new user message. -/
def sent_messages (messages : List Message) : List Message :=
  match messages with
  | [] => []
  | m :: rest => { m with content := initial_prompt ++ m.content } :: rest

/-- JSON values at the level serde_json operates on once text is parsed;
the numbers this format carries are unsigned integers (token counts). -/
inductive Json where
  | str : String → Json
  | num : Nat → Json
  | arr : List Json → Json
  | obj : List (String × Json) → Json

/-- serde's derived `Serialize` for `ChatLogEntry` (`src/api.rs` line 9):
an object with the four named fields. -/
def encodeEntry (e : ChatLogEntry) : Json :=
  Json.obj [("message", Json.str e.message), ("response", Json.str e.response),
    ("num_tokens_message", Json.num e.num_tokens_message),
    ("num_tokens_response", Json.num e.num_tokens_response)]

/-- Deserializing a string field by name, as serde's derived
`Deserialize` does. -/
def jGetStr (fields : List (String × Json)) (key : String) : Option String :=
  match fields.lookup key with
  | some (Json.str s) => some s
  | _ => none

/-- Deserializing a `u32` field by name: serde rejects numbers above
`u32::MAX`. -/
def jGetU32 (fields : List (String × Json)) (key : String) : Option Nat :=
  match fields.lookup key with
  | some (Json.num n) => if n < U32 then some n else none
  | _ => none

/-- serde's derived `Deserialize` for `ChatLogEntry`. -/
def decodeEntry : Json → Option ChatLogEntry
  | Json.obj fields =>
    match jGetStr fields "message", jGetStr fields "response",
        jGetU32 fields "num_tokens_message", jGetU32 fields "num_tokens_response" with
    | some m, some r, some tm, some tr => some ⟨m, r, tm, tr⟩
    | _, _, _, _ => none
  | _ => none

/-- `ChatGPTSession::save_chatlog_to_path` (`src/api.rs` lines 85-89) at
the JSON value level: the file written is the pretty rendering of this
value (`serde_json::to_string_pretty(&self.chatlog)`). -/
def save_chatlog_json (s : ChatGPTSession) : Json :=
  Json.arr (s.chatlog.map encodeEntry)

/-- Deserializing `Vec<ChatLogEntry>` from a parsed JSON value. -/
def decode_chatlog : Json → Option (List ChatLogEntry)
  | Json.arr elems => elems.mapM decodeEntry
  | _ => none

/-- `ChatGPTSession::with_log_file` (`src/api.rs` lines 60-64), given the
parsed JSON value of the file: replace the chatlog with the decoded
entries, or fail on malformed input. -/
def with_log_file (s : ChatGPTSession) (j : Json) : Option ChatGPTSession :=
  match decode_chatlog j with
  | some entries => some { s with chatlog := entries }
  | none => none

/-- The HTTP transport boundary: the POST of the request body and the
JSON field extraction from its response, yielding either the error
object's message or `(answer, prompt_tokens, completion_tokens)` with the
token counts as the `i64` values `as_i64` produces. -/
def HttpOracle : Type :=
  ChatGPTRequest → Except String (String × Int × Int)

/-- `ChatGPTClient::send_request` (`src/api.rs` lines 185-246) with the
network call abstracted as `http`: prefix the preamble, send, and on
success build the `ChatLogEntry` whose `message` is the last transmitted
message's content with the preamble occurrences removed. -/
def send_request (http : HttpOracle) (client : ChatGPTClient)
    (messages : List Message) : Except String ChatLogEntry :=
  let sent := sent_messages messages
  let request : ChatGPTRequest := ⟨client.model, sent⟩
  match http request with
  | Except.error e => Except.error e
  | Except.ok (answer, prompt_tokens, answer_tokens) =>
    let prompt := Message.new
      ((request.messages.getLastD (Message.new "" "user")).content) "user"
    Except.ok
      { message := rustReplace prompt.content initial_prompt
        response := answer
        num_tokens_message := as_u32 prompt_tokens
        num_tokens_response := as_u32 answer_tokens }

/-- `ChatGPTSession::send_message` (`src/api.rs` lines 92-130): build the
window, call `send_request`, and append the returned entry to the chatlog
only on success; the session is returned alongside the result to model
the `&mut self` update. -/
def send_message (http : HttpOracle) (s : ChatGPTSession) (text : String) :
    Except String ChatLogEntry × ChatGPTSession :=
  let messages := build_window s.max_tokens s.chatlog text
  match send_request http s.client messages with
  | Except.error e => (Except.error e, s)
  | Except.ok response => (Except.ok response, { s with chatlog := s.chatlog ++ [response] })

/-- A transport that always reports a service error, for witnesses. -/
def http_fail : HttpOracle := fun _ => Except.error "boom"

/-- A transport that always succeeds with a fixed reply, for witnesses. -/
def http_ok : HttpOracle := fun _ => Except.ok ("hi there", 4, 2)

section Helpers

theorem removeOccs_cons_pos (pat : List Char) (c : Char) (rest : List Char)
    (h1 : pat ≠ []) (h2 : pat <+: (c :: rest)) :
    removeOccs pat (c :: rest) = removeOccs pat (List.drop pat.length (c :: rest)) := by
  rw [removeOccs, dif_pos ⟨h1, h2⟩]

theorem removeOccs_cons_neg (pat : List Char) (c : Char) (rest : List Char)
    (h : ¬ (pat ≠ [] ∧ pat <+: (c :: rest))) :
    removeOccs pat (c :: rest) = c :: removeOccs pat rest := by
  rw [removeOccs, dif_neg h]

theorem removeOccs_length_le (pat s : List Char) :
    (removeOccs pat s).length ≤ s.length := by
  induction s using removeOccs.induct pat with
  | case1 => simp [removeOccs]
  | case2 c rest h ih =>
    rw [removeOccs_cons_pos pat c rest h.1 h.2]
    calc (removeOccs pat (List.drop pat.length (c :: rest))).length
        ≤ (List.drop pat.length (c :: rest)).length := ih
      _ ≤ (c :: rest).length := by simp [List.length_drop]
  | case3 c rest h ih =>
    rw [removeOccs_cons_neg pat c rest h]
    simpa using ih

theorem removeOccs_no_occ (pat s : List Char) (h : ¬ pat <:+: s) :
    removeOccs pat s = s := by
  induction s using removeOccs.induct pat with
  | case1 => simp [removeOccs]
  | case2 c rest hc ih =>
    obtain ⟨t, ht⟩ := hc.2
    exact absurd ⟨[], t, by simpa using ht⟩ h
  | case3 c rest hc ih =>
    rw [removeOccs_cons_neg pat c rest hc]
    refine ?_
    have hr : ¬ pat <:+: rest := by
      intro hi
      obtain ⟨u, v, huv⟩ := hi
      exact h ⟨c :: u, v, by rw [← huv]; rfl⟩
    rw [ih hr]

theorem removeOccs_append_self (pat s : List Char) (hp : pat ≠ []) :
    removeOccs pat (pat ++ s) = removeOccs pat s := by
  cases pat with
  | nil => exact absurd rfl hp
  | cons p ps =>
    have h2 : (p :: ps) <+: (p :: (ps ++ s)) := ⟨s, by simp⟩
    rw [show (p :: ps) ++ s = p :: (ps ++ s) from rfl,
      removeOccs_cons_pos (p :: ps) p (ps ++ s) hp h2,
      show p :: (ps ++ s) = (p :: ps) ++ s from rfl, List.drop_left]

theorem removeOccs_length_lt (pat s : List Char) (hp : pat ≠ []) (h : pat <:+: s) :
    (removeOccs pat s).length < s.length := by
  induction s using removeOccs.induct pat with
  | case1 =>
    have hnil : pat = [] := by simpa using h
    exact absurd hnil hp
  | case2 c rest hc ih =>
    rw [removeOccs_cons_pos pat c rest hc.1 hc.2]
    have hple : pat.length ≤ (c :: rest).length := hc.2.length_le
    have hppos : 0 < pat.length := List.length_pos.mpr hc.1
    calc (removeOccs pat (List.drop pat.length (c :: rest))).length
        ≤ (List.drop pat.length (c :: rest)).length := removeOccs_length_le _ _
      _ < (c :: rest).length := by
          simp only [List.length_drop, List.length_cons]
          omega
  | case3 c rest hc ih =>
    rw [removeOccs_cons_neg pat c rest hc]
    have hrest : pat <:+: rest := by
      obtain ⟨l, r, hlr⟩ := h
      cases l with
      | nil => exact absurd ⟨r, by simpa using hlr⟩ (fun hpre => hc ⟨hp, hpre⟩)
      | cons a ltl =>
        refine ⟨ltl, r, ?_⟩
        have := hlr
        simp only [List.cons_append] at this
        exact (List.cons.injEq _ _ _ _ ▸ this).2
    have := ih hrest
    simpa using this

theorem build_window_loop_cons (max_tokens : Nat) (e : ChatLogEntry)
    (rest : List ChatLogEntry) (msgs : List Message) (n : Nat) :
    build_window_loop max_tokens (e :: rest) msgs n =
      if (e.num_tokens_response + n) % U32 > max_tokens then (msgs, n)
      else if (e.num_tokens_message + (n + e.num_tokens_response) % U32) % U32 > max_tokens then
        (Message.new e.response "assistant" :: msgs, (n + e.num_tokens_response) % U32)
      else
        build_window_loop max_tokens rest
          (Message.new e.message "user" :: Message.new e.response "assistant" :: msgs)
          (((n + e.num_tokens_response) % U32 + e.num_tokens_message) % U32) := rfl

/-- The loop only ever prepends to its accumulator. -/
theorem build_window_loop_acc (max_tokens : Nat) (revlog : List ChatLogEntry) :
    ∀ (msgs : List Message) (n : Nat),
      build_window_loop max_tokens revlog msgs n =
        ((build_window_loop max_tokens revlog [] n).1 ++ msgs,
          (build_window_loop max_tokens revlog [] n).2) := by
  induction revlog with
  | nil => intro msgs n; rfl
  | cons e rest ih =>
    intro msgs n
    rw [build_window_loop_cons, build_window_loop_cons]
    split_ifs with h1 h2
    · rfl
    · rfl
    · rw [ih (Message.new e.message "user" :: Message.new e.response "assistant" :: msgs),
        ih [Message.new e.message "user", Message.new e.response "assistant"]]
      simp

theorem pairs_flat_append (l1 l2 : List ChatLogEntry) :
    pairs_flat (l1 ++ l2) = pairs_flat l1 ++ pairs_flat l2 := by
  induction l1 with
  | nil => rfl
  | cons e rest ih => simp [pairs_flat, ih]

/-- Structure of the scanned part of the window: it is the flattened pair
list of a suffix of the chatlog, possibly preceded by the lone reply of
the entry just before that suffix. -/
theorem window_core_structure (max_tokens : Nat) (revlog : List ChatLogEntry) :
    ∀ n : Nat, ∃ pre suf : List ChatLogEntry,
      revlog.reverse = pre ++ suf ∧
      ((build_window_loop max_tokens revlog [] n).1 = pairs_flat suf ∨
        ∃ pre2 e, pre = pre2 ++ [e] ∧
          (build_window_loop max_tokens revlog [] n).1 =
            Message.new e.response "assistant" :: pairs_flat suf) := by
  induction revlog with
  | nil => exact fun n => ⟨[], [], rfl, Or.inl rfl⟩
  | cons e rest ih =>
    intro n
    rw [build_window_loop_cons]
    split_ifs with h1 h2
    · exact ⟨rest.reverse ++ [e], [], by simp, Or.inl rfl⟩
    · exact ⟨rest.reverse ++ [e], [], by simp, Or.inr ⟨rest.reverse, e, rfl, rfl⟩⟩
    · rw [build_window_loop_acc]
      obtain ⟨pre, suf, hsplit, hshape⟩ := ih (((n + e.num_tokens_response) % U32 +
        e.num_tokens_message) % U32)
      refine ⟨pre, suf ++ [e], by rw [List.reverse_cons, hsplit, List.append_assoc], ?_⟩
      have hpair : pairs_flat (suf ++ [e]) =
          pairs_flat suf ++
            [Message.new e.message "user", Message.new e.response "assistant"] := by
        rw [pairs_flat_append]; rfl
      cases hshape with
      | inl h =>
        exact Or.inl (by rw [h, hpair])
      | inr h =>
        obtain ⟨pre2, e0, hpre, hcore⟩ := h
        exact Or.inr ⟨pre2, e0, hpre, by rw [hcore, hpair]; rfl⟩

/-- At a larger budget the scan runs at least as far, so the smaller
budget's scanned messages are a suffix of the larger budget's. -/
theorem build_window_loop_suffix (b1 b2 : Nat) (hb : b1 ≤ b2)
    (revlog : List ChatLogEntry) :
    ∀ n : Nat, (build_window_loop b1 revlog [] n).1 <:+ (build_window_loop b2 revlog [] n).1 := by
  induction revlog with
  | nil => exact fun n => List.suffix_rfl
  | cons e rest ih =>
    intro n
    rw [build_window_loop_cons, build_window_loop_cons]
    by_cases h1 : (e.num_tokens_response + n) % U32 > b1
    · simp only [h1, if_true]
      exact List.nil_suffix
    · have h1b : ¬ (e.num_tokens_response + n) % U32 > b2 := by omega
      simp only [h1, h1b, if_false]
      by_cases h2 : (e.num_tokens_message + (n + e.num_tokens_response) % U32) % U32 > b1
      · simp only [h2, if_true]
        by_cases h2b : (e.num_tokens_message + (n + e.num_tokens_response) % U32) % U32 > b2
        · simp only [h2b, if_true]
          exact List.suffix_rfl
        · simp only [h2b, if_false]
          rw [build_window_loop_acc]
          exact (List.suffix_append [Message.new e.message "user"]
            [Message.new e.response "assistant"]).trans (List.suffix_append _ _)
      · have h2b : ¬ (e.num_tokens_message + (n + e.num_tokens_response) % U32) % U32 > b2 := by
          omega
        simp only [h2, h2b, if_false]
        rw [build_window_loop_acc b1, build_window_loop_acc b2]
        obtain ⟨t, ht⟩ := ih (((n + e.num_tokens_response) % U32 + e.num_tokens_message) % U32)
        exact ⟨t, by rw [← List.append_assoc, ht]⟩

theorem splitSpaces_ne_nil (l : List Char) : splitSpaces l ≠ [] := by
  cases l with
  | nil => simp [splitSpaces]
  | cons c rest =>
    unfold splitSpaces
    by_cases h : isSpace32 c
    · simp [h]
    · simp only [h, if_false]
      cases splitSpaces rest <;> simp

theorem splitSpaces_length (l : List Char) :
    (splitSpaces l).length = l.countP isSpace32 + 1 := by
  induction l with
  | nil => simp [splitSpaces]
  | cons c rest ih =>
    unfold splitSpaces
    by_cases h : isSpace32 c
    · simp [h, List.countP_cons, ih]
    · simp only [h, if_false]
      rcases hs : splitSpaces rest with _ | ⟨piece, pieces⟩
      · exact absurd hs (splitSpaces_ne_nil rest)
      · rw [hs] at ih
        simp at ih
        simp [List.countP_cons, h, ← ih]

theorem initial_prompt_toList_ne_nil : initial_prompt.toList ≠ [] := by decide

theorem sent_messages_cons (m : Message) (rest : List Message) :
    sent_messages (m :: rest) = Message.new (initial_prompt ++ m.content) m.role :: rest := rfl

/-- The last transmitted message of a window of two or more messages is
the last submitted one, whatever the fallbacks. -/
theorem sent_getLastD (m r : Message) (rs : List Message) :
    ((Message.new (initial_prompt ++ m.content) m.role :: r :: rs).getLastD
      (Message.new "" "user")) = (r :: rs).getLastD m := by
  calc (Message.new (initial_prompt ++ m.content) m.role :: r :: rs).getLastD
        (Message.new "" "user")
      = (r :: rs).getLastD (Message.new (initial_prompt ++ m.content) m.role) :=
        List.getLastD_cons _ _ _
    _ = rs.getLastD r := List.getLastD_cons _ _ _
    _ = (r :: rs).getLastD m := (List.getLastD_cons _ _ _).symm

/-- The success case of `send_request`: the returned entry records the
last transmitted message's content with the preamble occurrences
removed, the answer text, and the two `as u32`-cast token counts. -/
theorem send_request_ok_eq (http : HttpOracle) (client : ChatGPTClient)
    (m : Message) (rest : List Message) (ans : String) (pt ct : Int)
    (hok : http ⟨client.model, Message.new (initial_prompt ++ m.content) m.role :: rest⟩ =
      Except.ok (ans, pt, ct)) :
    send_request http client (m :: rest) =
      Except.ok
        { message := rustReplace
            (((Message.new (initial_prompt ++ m.content) m.role :: rest).getLastD
              (Message.new "" "user")).content) initial_prompt
          response := ans
          num_tokens_message := as_u32 pt
          num_tokens_response := as_u32 ct } := by
  simp only [send_request, sent_messages_cons]
  rw [hok]
  rfl

/-- Removing preamble occurrences undoes prefixing it, when the original
text holds no occurrence of its own. -/
theorem rustReplace_strip (s : String)
    (hnocc : ¬ initial_prompt.toList <:+: s.toList) :
    rustReplace (initial_prompt ++ s) initial_prompt = s := by
  show String.mk (removeOccs initial_prompt.toList
    (initial_prompt.toList ++ s.toList)) = s
  rw [removeOccs_append_self _ _ initial_prompt_toList_ne_nil,
    removeOccs_no_occ _ _ hnocc]
  rfl

/-- Removing preamble occurrences from a text holding none is the
identity. -/
theorem rustReplace_id (s : String)
    (hnocc : ¬ initial_prompt.toList <:+: s.toList) :
    rustReplace s initial_prompt = s := by
  show String.mk (removeOccs initial_prompt.toList s.toList) = s
  rw [removeOccs_no_occ _ _ hnocc]
  rfl

theorem decodeEntry_encodeEntry (e : ChatLogEntry)
    (h1 : e.num_tokens_message < U32) (h2 : e.num_tokens_response < U32) :
    decodeEntry (encodeEntry e) = some e := by
  simp [encodeEntry, decodeEntry, jGetStr, jGetU32, List.lookup, h1, h2]

theorem chatlog_roundtrip (l : List ChatLogEntry)
    (h : ∀ e ∈ l, e.num_tokens_message < U32 ∧ e.num_tokens_response < U32) :
    (l.map encodeEntry).mapM decodeEntry = some l := by
  induction l with
  | nil => rfl
  | cons e rest ih =>
    have he := h e (by simp)
    rw [List.map_cons, List.mapM_cons, decodeEntry_encodeEntry e he.1 he.2,
      ih (fun x hx => h x (by simp [hx]))]
    rfl

end Helpers

section Claims

/-- C1: `send_message` builds the request window by the deterministic
newest-first scan of the spec: the loop on a non-empty transcript first
checks whether the entry's reply tokens would exceed the budget (stopping
the whole scan if so), otherwise prepends the reply and commits its count,
then checks the entry's prompt tokens the same way; and on the concrete
scenario (transcript `[{msg:"a",resp:"b",mt:5,rt:5}]`, budget 8, new
message `"x y z"` costing 3 tokens) the resulting window is exactly
`[assistant:"b", user:"x y z"]`, the prompt `"a"` excluded. -/
theorem send_builds_window_by_newest_first_scan :
    (∀ (max_tokens : Nat) (entry : ChatLogEntry) (rest : List ChatLogEntry)
        (messages : List Message) (num_tokens : Nat),
      build_window_loop max_tokens (entry :: rest) messages num_tokens =
        if (entry.num_tokens_response + num_tokens) % U32 > max_tokens then
          (messages, num_tokens)
        else if (entry.num_tokens_message + (num_tokens + entry.num_tokens_response) % U32) % U32
            > max_tokens then
          (Message.new entry.response "assistant" :: messages,
            (num_tokens + entry.num_tokens_response) % U32)
        else
          build_window_loop max_tokens rest
            (Message.new entry.message "user" ::
              Message.new entry.response "assistant" :: messages)
            (((num_tokens + entry.num_tokens_response) % U32 + entry.num_tokens_message) % U32)) ∧
    num_tokens_of "x y z" = 3 ∧
    build_window 8 [⟨"a", "b", 5, 5⟩] "x y z" =
      [Message.new "b" "assistant", Message.new "x y z" "user"] := by
  refine ⟨fun max_tokens entry rest messages num_tokens => rfl, by decide, by decide⟩

/-- C2: the new user message is always the final (newest) element of the
window built by `send_message`, whatever the transcript and budget. -/
theorem new_message_always_last (max_tokens : Nat) (chatlog : List ChatLogEntry)
    (text : String) :
    (build_window max_tokens chatlog text).getLast? = some (Message.new text "user") := by
  unfold build_window
  exact List.getLast?_concat _

/-- C9: `reset` empties the transcript while leaving the token budget and
the transport client unchanged (it is a total function, so it always
succeeds), and a `send` immediately after `reset` builds a window
containing exactly the one new user message. -/
theorem reset_clears_transcript_only (s : ChatGPTSession) (new_name text : String) :
    (reset s new_name).chatlog = [] ∧
    (reset s new_name).max_tokens = s.max_tokens ∧
    (reset s new_name).client = s.client ∧
    build_window (reset s new_name).max_tokens (reset s new_name).chatlog text =
      [Message.new text "user"] := by
  exact ⟨rfl, rfl, rfl, rfl⟩

/-- C3: the window never contains an entry's prompt without that entry's
reply: the window is the fully paired `[user, assistant]` flattening of a
suffix of the chatlog followed by the new user message, at most preceded
by the lone reply of the entry immediately older than that suffix — so
the only partial inclusion is reply-without-prompt, and only for the
oldest entry represented. -/
theorem window_never_prompt_without_reply (max_tokens : Nat)
    (chatlog : List ChatLogEntry) (text : String) :
    ∃ pre suf : List ChatLogEntry,
      chatlog = pre ++ suf ∧
      (build_window max_tokens chatlog text =
          pairs_flat suf ++ [Message.new text "user"] ∨
        ∃ pre2 e, pre = pre2 ++ [e] ∧
          build_window max_tokens chatlog text =
            (Message.new e.response "assistant" :: pairs_flat suf) ++
              [Message.new text "user"]) := by
  obtain ⟨pre, suf, hsplit, hshape⟩ :=
    window_core_structure max_tokens chatlog.reverse (num_tokens_of text)
  rw [List.reverse_reverse] at hsplit
  refine ⟨pre, suf, hsplit, ?_⟩
  unfold build_window
  cases hshape with
  | inl h => exact Or.inl (by rw [h])
  | inr h =>
    obtain ⟨pre2, e, hpre, hcore⟩ := h
    exact Or.inr ⟨pre2, e, hpre, by rw [hcore]⟩

/-- C4: window-building is monotonic in the budget: with the transcript
and new message fixed, any message of the window built at budget `b1` is
also in the window built at any budget `b2 ≥ b1`. -/
theorem window_monotone_in_budget (b1 b2 : Nat) (chatlog : List ChatLogEntry)
    (text : String) (m : Message) (hb : b1 ≤ b2)
    (hm : m ∈ build_window b1 chatlog text) :
    m ∈ build_window b2 chatlog text := by
  have hsuf : build_window b1 chatlog text <:+ build_window b2 chatlog text := by
    unfold build_window
    obtain ⟨t, ht⟩ :=
      build_window_loop_suffix b1 b2 hb chatlog.reverse (num_tokens_of text)
    exact ⟨t, by rw [← List.append_assoc, ht]⟩
  exact hsuf.subset hm

/-- C4 witness: at budget 2 the entry does not fit and the window is just
the new message, which indeed persists at budget 20. -/
theorem window_monotone_in_budget_witness :
    Message.new "x y z" "user" ∈ build_window 20 [⟨"a", "b", 5, 5⟩] "x y z" :=
  window_monotone_in_budget 2 20 [⟨"a", "b", 5, 5⟩] "x y z"
    (Message.new "x y z" "user") (by decide) (by decide)

/-- C8 counterexample: the seed is not the whitespace-delimited word
count. On the empty string the code's heuristic (`split(' ').count()`)
yields 1 while the whitespace word count is 0; on `"a  b"` (two spaces)
the code yields 3 while the word count is 2. -/
theorem seed_differs_from_whitespace_wordcount :
    num_tokens_of "" = 1 ∧ whitespace_word_count "" = 0 ∧
    num_tokens_of "a  b" = 3 ∧ whitespace_word_count "a  b" = 2 := by
  refine ⟨by decide, by decide, by decide, by decide⟩

/-- C8 amended: the token cost seeding the window-building count is the
number of fragments obtained by splitting the text on the single space
character U+0020 — one more than the number of space characters, empty
fragments counted — reduced mod `2^32` by the `as u32` cast. -/
theorem seed_is_space_split_count (s : String) :
    num_tokens_of s = (s.toList.countP isSpace32 + 1) % U32 := by
  unfold num_tokens_of
  rw [splitSpaces_length]

/-- C5: when the transport call inside `send_message` fails, the error is
returned to the caller and the session — in particular its transcript —
is exactly what it was before the call; an entry is appended only on
success. -/
theorem send_error_preserves_transcript (http : HttpOracle) (s : ChatGPTSession)
    (text : String) (e : String)
    (h : send_request http s.client (build_window s.max_tokens s.chatlog text) =
      Except.error e) :
    send_message http s text = (Except.error e, s) := by
  simp only [send_message]
  rw [h]

/-- C5 witness: a transport that reports an error leaves a concrete
session untouched. -/
theorem send_error_preserves_transcript_witness :
    send_message http_fail ⟨"sess", [], 2000, ⟨"tok", "gpt"⟩⟩ "hi" =
      (Except.error "boom", ⟨"sess", [], 2000, ⟨"tok", "gpt"⟩⟩) :=
  send_error_preserves_transcript http_fail ⟨"sess", [], 2000, ⟨"tok", "gpt"⟩⟩ "hi" "boom" rfl

/-- C6: `send_request` prefixes the fixed preamble to the oldest (first)
message of the window before transmission, and the `message` text of the
returned entry has the preamble stripped back out: whenever the submitted
final message's text holds no occurrence of the preamble, the recorded
text is exactly that submitted text, so the stored transcript never
accumulates the preamble across repeated sends, saves, and reloads. -/
theorem preamble_prefixed_and_stripped (http : HttpOracle) (client : ChatGPTClient)
    (m : Message) (rest : List Message) (ans : String) (pt ct : Int)
    (hok : http ⟨client.model, Message.new (initial_prompt ++ m.content) m.role :: rest⟩ =
      Except.ok (ans, pt, ct))
    (hnocc : ¬ initial_prompt.toList <:+: (rest.getLastD m).content.toList) :
    sent_messages (m :: rest) = Message.new (initial_prompt ++ m.content) m.role :: rest ∧
    send_request http client (m :: rest) =
      Except.ok ⟨(rest.getLastD m).content, ans, as_u32 pt, as_u32 ct⟩ := by
  refine ⟨rfl, ?_⟩
  rw [send_request_ok_eq http client m rest ans pt ct hok]
  cases rest with
  | nil =>
    have h1 : ((Message.new (initial_prompt ++ m.content) m.role :: ([] : List Message)).getLastD
        (Message.new "" "user")).content = initial_prompt ++ m.content := rfl
    rw [h1, rustReplace_strip m.content hnocc]
    rfl
  | cons r rs =>
    rw [sent_getLastD m r rs, rustReplace_id _ hnocc]

/-- C6 witness: sending `"hello"` as the sole window message transmits it
with the preamble prefixed and records plain `"hello"` with the oracle's
token counts. -/
theorem preamble_prefixed_and_stripped_witness :
    sent_messages [Message.new "hello" "user"] =
      [Message.new (initial_prompt ++ "hello") "user"] ∧
    send_request http_ok ⟨"tok", "gpt"⟩ [Message.new "hello" "user"] =
      Except.ok ⟨"hello", "hi there", 4, 2⟩ :=
  preamble_prefixed_and_stripped http_ok ⟨"tok", "gpt"⟩ (Message.new "hello" "user") []
    "hi there" 4 2 rfl (by decide)

/-- C10: the preamble removal deletes every occurrence, not only a
leading prefix: whenever the submitted final message's text contains the
preamble as a substring, the recorded `message` text differs from the
submitted text. -/
theorem replace_strips_everywhere (http : HttpOracle) (client : ChatGPTClient)
    (m : Message) (rest : List Message) (ans : String) (pt ct : Int)
    (hok : http ⟨client.model, Message.new (initial_prompt ++ m.content) m.role :: rest⟩ =
      Except.ok (ans, pt, ct))
    (hocc : initial_prompt.toList <:+: (rest.getLastD m).content.toList) :
    ∃ entry, send_request http client (m :: rest) = Except.ok entry ∧
      entry.message ≠ (rest.getLastD m).content := by
  refine ⟨_, send_request_ok_eq http client m rest ans pt ct hok, ?_⟩
  have hlt : (rustReplace
      (((Message.new (initial_prompt ++ m.content) m.role :: rest).getLastD
        (Message.new "" "user")).content) initial_prompt).toList.length <
      ((rest.getLastD m).content).toList.length := by
    cases rest with
    | nil =>
      show (removeOccs initial_prompt.toList
        (initial_prompt.toList ++ m.content.toList)).length < m.content.toList.length
      rw [removeOccs_append_self _ _ initial_prompt_toList_ne_nil]
      exact removeOccs_length_lt _ _ initial_prompt_toList_ne_nil hocc
    | cons r rs =>
      rw [sent_getLastD m r rs]
      exact removeOccs_length_lt _ _ initial_prompt_toList_ne_nil hocc
  intro heq
  have hlen := congrArg (fun t : String => t.toList.length) heq
  simp only at hlen
  omega

/-- C10 witness: submitting the preamble itself as the user text yields a
recorded message that differs from what was submitted. -/
theorem replace_strips_everywhere_witness :
    ∃ entry, send_request http_ok ⟨"tok", "gpt"⟩ [Message.new initial_prompt "user"] =
        Except.ok entry ∧ entry.message ≠ initial_prompt :=
  replace_strips_everywhere http_ok ⟨"tok", "gpt"⟩ (Message.new initial_prompt "user") []
    "hi there" 4 2 rfl ⟨[], [], by simp [Message.new]⟩

/-- C7: saving the transcript and loading the produced file reproduces
an identical ordered sequence of entries — message text, response text
and both token counts round-trip exactly (token counts are `u32` values,
hence below `2^32`); pretty-print whitespace lives below the JSON value
level this is stated at. -/
theorem save_load_roundtrip (s s2 : ChatGPTSession)
    (h : ∀ e ∈ s.chatlog, e.num_tokens_message < U32 ∧ e.num_tokens_response < U32) :
    with_log_file s2 (save_chatlog_json s) = some { s2 with chatlog := s.chatlog } := by
  simp only [with_log_file, save_chatlog_json, decode_chatlog]
  rw [chatlog_roundtrip s.chatlog h]

/-- C7 witness: a concrete one-entry transcript round-trips. -/
theorem save_load_roundtrip_witness :
    with_log_file ⟨"n2", [], 100, ⟨"t", "m"⟩⟩
      (save_chatlog_json ⟨"n1", [⟨"a", "b", 5, 7⟩], 2000, ⟨"k", "g"⟩⟩) =
      some ⟨"n2", [⟨"a", "b", 5, 7⟩], 100, ⟨"t", "m"⟩⟩ :=
  save_load_roundtrip ⟨"n1", [⟨"a", "b", 5, 7⟩], 2000, ⟨"k", "g"⟩⟩
    ⟨"n2", [], 100, ⟨"t", "m"⟩⟩ (by decide)

end Claims

end ChatGPTTerm
